import Mathlib

/-
  Verification development for the dsp repository (disciplined saddle-point
  programming): a shallow embedding of src/dsp/atoms.py,
  src/dspp/semi_infinite_canon.py and src/dspp/cvxpy_integration.py, together
  with spec-modelled interfaces for the collaborator modules that the
  repository imports but whose sources are not present (dsp/cone_transforms.py,
  dsp/parser.py, dsp/local.py, dspp/problem.py).

  Numeric values are rationals; numpy arrays are a shape together with
  row-major flat data; cvxpy expressions are embedded as records of the
  attributes the code reads (curvature flags, sign flags, shape, value,
  variable list) plus the parser-side classification contract.
-/

deriving instance DecidableEq for Except

namespace DSP

/-- A numpy ndarray value: a shape together with the row-major flat data. -/
structure NdArray where
  shape : List Nat
  data : List ℚ
deriving DecidableEq

/-- The j-th column of a row-major (m, n) array, read top to bottom. -/
def colF (m n j : Nat) (d : List ℚ) : List ℚ :=
  (List.range m).map (fun i => d.getD (i * n + j) 0)

/-- Fortran-order (column-major) flattening of a row-major (m, n) array,
as performed by np.reshape(v, (size,), order="F") on a 2-D input. -/
def fortranFlatten (m n : Nat) (d : List ℚ) : List ℚ :=
  ((List.range n).map (fun j => colF m n j d)).flatten

/-- The flat data of np.reshape(v, (v.size,), order="F"): identity on
0-D and 1-D arrays, Fortran-order read on 2-D arrays. -/
def NdArray.flattenF (a : NdArray) : List ℚ :=
  match a.shape with
  | [m, n] => fortranFlatten m n a.data
  | _ => a.data

/-- Dot product of two flat vectors (numpy 1-D matmul). -/
def dot : List ℚ → List ℚ → ℚ
  | a :: as, b :: bs => a * b + dot as bs
  | _, _ => 0

/-- The literal inner product of two array values: the dot product of their
flat data. This is the spec-side reference quantity for the pairing atom. -/
def literalInner (a b : NdArray) : ℚ :=
  dot a.data b.data

/-- The shape test from the atom constructors:
len(shape) <= 1 or (len(shape) == 2 and min(shape) == 1). -/
def vectorShapeOk : List Nat → Bool
  | [] => true
  | [_] => true
  | [a, b] => Nat.min a b == 1
  | _ => false

theorem range_map_getD (d : List ℚ) :
    (List.range d.length).map (fun i => d.getD i 0) = d := by
  induction d with
  | nil => simp
  | cons a tl ih =>
    rw [List.length_cons, List.range_succ_eq_map, List.map_cons, List.map_map]
    show a :: List.map (fun i => tl.getD i 0) (List.range tl.length) = a :: tl
    rw [ih]

theorem flatten_map_singleton (l : List Nat) (f : Nat → ℚ) :
    ((l.map (fun x => [f x])).flatten) = l.map f := by
  induction l with
  | nil => rfl
  | cons a tl ih => simp [ih]

theorem fortranFlatten_col (m : Nat) (d : List ℚ) (h : d.length = m) :
    fortranFlatten m 1 d = d := by
  have h1 : List.range 1 = [0] := rfl
  unfold fortranFlatten colF
  rw [h1]
  simp only [List.map_cons, List.map_nil, List.flatten_cons, List.flatten_nil,
    List.append_nil, Nat.mul_one, Nat.add_zero]
  rw [← h, range_map_getD]

theorem fortranFlatten_row (n : Nat) (d : List ℚ) (h : d.length = n) :
    fortranFlatten 1 n d = d := by
  have h1 : List.range 1 = [0] := rfl
  unfold fortranFlatten colF
  have h2 : (fun j => (List.range 1).map (fun i => d.getD (i * n + j) 0))
      = (fun j => [d.getD j 0]) := by
    funext j
    rw [h1]
    simp
  rw [h2, flatten_map_singleton, ← h, range_map_getD]

theorem flattenF_of_vectorShape (a : NdArray) (hs : vectorShapeOk a.shape = true)
    (hl : a.data.length = a.shape.prod) : a.flattenF = a.data := by
  obtain ⟨s, d⟩ := a
  simp only at hs hl
  rcases s with _ | ⟨m, _ | ⟨n, _ | ⟨k, rest⟩⟩⟩
  case nil => rfl
  case cons.nil => rfl
  case cons.cons.nil =>
    simp only [vectorShapeOk, beq_iff_eq] at hs
    simp only [List.prod_cons, List.prod_nil, Nat.mul_one] at hl
    have hmn : m = 1 ∨ n = 1 := by
      unfold Nat.min at hs
      rcases Nat.le_total m n with hle | hle
      · rw [inf_eq_left.mpr hle] at hs
        exact Or.inl hs
      · rw [inf_eq_right.mpr hle] at hs
        exact Or.inr hs
    show fortranFlatten m n d = d
    cases hmn with
    | inl hm =>
      subst hm
      exact fortranFlatten_row n d (by omega)
    | inr hn =>
      subst hn
      exact fortranFlatten_col m d (by omega)
  case cons.cons.cons => simp [vectorShapeOk] at hs

/-- A cvxpy variable, as the core needs it: an identity plus whether it is an
instance of LocalVariable (dsp/local.py, not under src/; the spec treats
locality as a tag scoping a variable to one saddle-extremum atom). -/
structure Var where
  id : Nat
  isLocal : Bool
deriving DecidableEq

/-- A cvxpy expression, embedded as the record of attributes the dsp core
reads from the expression collaborator: curvature flags (is_affine, is_convex,
is_concave), sign flags (is_nonneg, is_nonpos), is_psd, shape, the optional
numeric value, and the free-variable list. The two side-classification lists
are Modelled from the spec: the parser collaborator must supply the partition
of the free variables into convex-side and concave-side sets. -/
structure CExpr where
  affine : Bool
  convex : Bool
  concave : Bool
  nonneg : Bool
  nonpos : Bool
  psd : Bool
  shape : List Nat
  value : Option NdArray
  vars : List Var
  convexSideVars : List Var
  concaveSideVars : List Var
deriving DecidableEq

/-- expr.size in cvxpy: the product of the shape. -/
def CExpr.size (e : CExpr) : Nat := e.shape.prod

/-- Negation of an expression: value negated, curvature and sign and parser
classification swapped. -/
def CExpr.neg (e : CExpr) : CExpr :=
  { e with
    convex := e.concave
    concave := e.convex
    nonneg := e.nonpos
    nonpos := e.nonneg
    value := e.value.map (fun a => ⟨a.shape, a.data.map (fun q => -q)⟩)
    convexSideVars := e.concaveSideVars
    concaveSideVars := e.convexSideVars }

/-- The warnings the atom constructors can emit (warnings.warn calls in
saddle_inner.__init__ and weighted_log_sum_exp.__init__). -/
inductive Warning where
  | gyNonneg
  | weightsNonneg
deriving DecidableEq

/-- The error taxonomy: Python AssertionError, numpy TypeError and ValueError,
and the dsp exceptions LocalVariableError (dsp/local.py) and DSPError
(dsp/parser.py). Modelled from the spec: LocalVariableError is the fatal
ScopeError of the taxonomy and is not a DSPError, so an except DSPError
handler does not catch it. -/
inductive PyError where
  | assertionError
  | typeError
  | valueError
  | localVariableError
  | dspError
deriving DecidableEq

/-- K-Representation sizes of the two global vectors (dsp/cone_transforms.py
LocalToGlob, not under src/). Modelled from the spec: the Variable Layout
assigns each side a flattened global vector; the atoms read only the two
total widths x_size and y_size. -/
structure LocalToGlob where
  x_size : Nat
  y_size : Nat
deriving DecidableEq

/-- Modelled from the spec: affine_to_canon (dsp/cone_transforms.py, not under
src/) extracts the affine map (B, c) of an expression against the global
vector of the requested side; the pair is kept abstract as a token determined
by its inputs, since no claim inspects the matrix entries. -/
structure AffineCanon where
  expr : CExpr
  ltg : LocalToGlob
  switched : Bool
deriving DecidableEq

def affine_to_canon (e : CExpr) (ltg : LocalToGlob) (switched : Bool) : AffineCanon :=
  ⟨e, ltg, switched⟩

/-- Which deferred evaluator a K-representation carries as concave_expr:
the lambdas installed at the end of the get_K_repr methods. -/
inductive CETag where
  | unset
  | concaveOf
  | negConvexOf
  | convexOf
deriving DecidableEq

/- ------------------------------------------------------------------
   saddle_inner (src/dsp/atoms.py lines 61 to 146)
   ------------------------------------------------------------------ -/

/-- The saddle_inner atom after construction: the two argument expressions
and the bilinear flag set by the constructor. -/
structure saddle_inner where
  Fx : CExpr
  Gy : CExpr
  bilinear : Bool
deriving DecidableEq

/-- saddle_inner.__init__: curvature and sign asserts in the non-affine
branch, the Gy non-negativity warning, the bilinear flag, and the shape
asserts. Returns the warnings emitted together with the result. -/
def saddle_inner.init (Fx Gy : CExpr) : List Warning × Except PyError saddle_inner :=
  if Fx.affine && Gy.affine then
    if ¬vectorShapeOk Fx.shape then ([], .error .assertionError)
    else if Fx.shape ≠ Gy.shape ∧ Fx.size ≠ Gy.size then ([], .error .assertionError)
    else ([], .ok ⟨Fx, Gy, true⟩)
  else
    if ¬Fx.convex then ([], .error .assertionError)
    else if ¬Fx.nonneg then ([], .error .assertionError)
    else if ¬Gy.concave then ([], .error .assertionError)
    else
      let warns := if ¬Gy.nonneg then [Warning.gyNonneg] else []
      if ¬vectorShapeOk Fx.shape then (warns, .error .assertionError)
      else if Fx.shape ≠ Gy.shape ∧ Fx.size ≠ Gy.size then (warns, .error .assertionError)
      else (warns, .ok ⟨Fx, Gy, false⟩)

/-- saddle_inner.get_concave_expression: asserts Fx has a value, flattens it
in Fortran order, and pairs it with the symbolically flattened Gy. The result
is the numeric coefficient vector together with the Gy expression it
multiplies. -/
def saddle_inner.get_concave_expression (s : saddle_inner) :
    Except PyError (List ℚ × CExpr) :=
  match s.Fx.value with
  | none => .error .assertionError
  | some vx => .ok (vx.flattenF, s.Gy)

/-- Numeric evaluation of the pairing returned by get_concave_expression,
once Gy also holds a value: cvxpy evaluates the reshaped Gy at its value and
takes the matmul with the numeric Fx vector. -/
def evalPairing (p : List ℚ × CExpr) : Option ℚ :=
  (p.2.value).map (fun vy => dot p.1 vy.flattenF)

/-- The numerically evaluated value of the saddle_inner concave expression:
get_concave_expression composed with numeric evaluation at the Gy value. -/
def saddle_inner.concaveExprValue (s : saddle_inner) : Option ℚ :=
  match s.get_concave_expression with
  | .error _ => none
  | .ok p => evalPairing p

/-- The constraints a saddle_inner K-representation can carry: the abstract
inner cone constraints of the two missing cone_transforms constructors, and
the implicit non-negativity constraint Gy >= 0 appended by get_K_repr. -/
inductive SIConstr where
  | bilinHypo (Fx Gy : CExpr)
  | generalFxGy (Fx Gy : CExpr) (switched : Bool)
  | nonneg (e : CExpr)
deriving DecidableEq

/-- Which cone_transforms constructor built the representation, with the
arguments it was given. -/
inductive SIOrigin where
  | bilin (a b : CExpr) (ltg : LocalToGlob)
  | fxgy (Fx Gy : CExpr) (switched : Bool) (ltg : LocalToGlob)
deriving DecidableEq

/-- The K-representation as saddle_inner.get_K_repr manipulates it. -/
structure KReprSI where
  origin : SIOrigin
  constraints : List SIConstr
  y_constraints : List SIConstr
  ce : CETag
deriving DecidableEq

/-- Modelled from the spec: K_repr_bilin (dsp/cone_transforms.py, not under
src/) builds the K-representation of an exact bilinear pairing of its two
argument expressions; the inner cone program encodes the hypograph of the
pairing directly and attaches no implicit sign constraint. -/
def K_repr_bilin (Fx Gy : CExpr) (ltg : LocalToGlob) : KReprSI :=
  ⟨SIOrigin.bilin Fx Gy ltg, [SIConstr.bilinHypo Fx Gy], [], CETag.unset⟩

/-- Modelled from the spec: K_repr_FxGy (dsp/cone_transforms.py, not under
src/) is the matched general construction for a non-bilinear convex-concave
pairing; it attaches no implicit sign constraint itself. -/
def K_repr_FxGy (Fx Gy : CExpr) (ltg : LocalToGlob) (switched : Bool) : KReprSI :=
  ⟨SIOrigin.fxgy Fx Gy switched ltg, [SIConstr.generalFxGy Fx Gy switched], [], CETag.unset⟩

/-- saddle_inner.get_K_repr: the bilinear branch calls K_repr_bilin with
(Fx, Gy) unswitched and with (-Gy, Fx) switched; the general branch calls
K_repr_FxGy and, when Gy is not known non-negative, appends Gy >= 0 to
y_constraints (unswitched) or constraints (switched); finally the
concave_expr lambda is installed. -/
def saddle_inner.get_K_repr (s : saddle_inner) (ltg : LocalToGlob)
    (switched : Bool) : KReprSI :=
  let K_out :=
    if s.bilinear then
      if switched then K_repr_bilin (CExpr.neg s.Gy) s.Fx ltg
      else K_repr_bilin s.Fx s.Gy ltg
    else
      let K0 := K_repr_FxGy s.Fx s.Gy ltg switched
      if ¬s.Gy.nonneg then
        if switched then
          { K0 with constraints := K0.constraints ++ [SIConstr.nonneg s.Gy] }
        else
          { K0 with y_constraints := K0.y_constraints ++ [SIConstr.nonneg s.Gy] }
      else K0
  { K_out with ce := if switched then CETag.negConvexOf else CETag.concaveOf }

/-- Count of the implicit non-negativity constraints on the expression e in a
saddle_inner constraint list. -/
def countNonnegSI (e : CExpr) (l : List SIConstr) : Nat :=
  (l.filter (fun c =>
    match c with
    | SIConstr.nonneg w => decide (w = e)
    | _ => false)).length

/- ------------------------------------------------------------------
   weighted_log_sum_exp (src/dsp/atoms.py lines 166 to 347)
   ------------------------------------------------------------------ -/

/-- The weighted_log_sum_exp atom after construction. -/
structure weighted_log_sum_exp where
  exponents : CExpr
  weights : CExpr
  concave_composition : Bool
deriving DecidableEq

/-- weighted_log_sum_exp.__init__: asserts exponents convex and weights
concave, warns when the weights are not recognized non-negative, records
whether the weights are a non-affine concave composition, and checks the
shapes. Returns the warnings emitted together with the result. -/
def weighted_log_sum_exp.init (exponents weights : CExpr) :
    List Warning × Except PyError weighted_log_sum_exp :=
  if ¬exponents.convex then ([], .error .assertionError)
  else if ¬weights.concave then ([], .error .assertionError)
  else
    let warns := if ¬weights.nonneg then [Warning.weightsNonneg] else []
    if ¬vectorShapeOk exponents.shape then (warns, .error .assertionError)
    else if exponents.shape ≠ weights.shape ∧ exponents.size ≠ weights.size then
      (warns, .error .assertionError)
    else (warns, .ok ⟨exponents, weights, !weights.affine⟩)

/-- The constraints a weighted_log_sum_exp K-representation can carry.
Auxiliary variables are identified by the Nat counter that allocated them
(cvxpy allocates globally fresh ids for every cp.Variable call). dualFeas is
the output of the modelled dualization transform. -/
inductive WConstr where
  | epiGe (epi_exp : Nat) (exponents : CExpr)
  | expCone (epi_exp u f_local : Nat)
  | tGe (t u : Nat)
  | tGlobalEq (t_global t : Nat)
  | tGlobalEqAff (t_global t f_local : Nat) (bc : AffineCanon)
  | fGlobalEq (f_global f_local : Nat)
  | fGlobalEqB (f_global : Nat) (bc : AffineCanon) (f_local : Nat)
  | weightsGeVar (weights : CExpr) (z : Nat)
  | varLeWeights (z : Nat) (weights : CExpr)
  | nonneg (weights : CExpr)
  | dualFeas (cons : List WConstr) (f t : Nat) (switchVars : List Var)
      (precomp : Option Nat) (mult : Nat)

/-- The K-representation as weighted_log_sum_exp.get_K_repr manipulates it:
the pairing variables f and t (by id), the two constraint lists, and the
installed concave_expr evaluator tag. -/
structure KReprW where
  f : Nat
  t : Nat
  constraints : List WConstr
  y_constraints : List WConstr
  ce : CETag

/-- Modelled from the spec: switch_convex_concave (dsp/cone_transforms.py,
not under src/), the Dualization Transform. It forms the conic dual of the
inner region over the listed variables: fresh dual multipliers are
introduced, the new f and t are fresh variables linear in those multipliers,
and the new constraint set is exactly the dual feasibility condition. The
counter state allocates the fresh ids. -/
def switch_convex_concave (cons : List WConstr) (f t : Nat) (switchVars : List Var)
    (ltg : LocalToGlob) (precomp : Option Nat) (ctr : Nat) : KReprW × Nat :=
  (⟨ctr, ctr + 1, [WConstr.dualFeas cons f t switchVars precomp (ctr + 2)], [],
    CETag.unset⟩, ctr + 3)

/-- weighted_log_sum_exp.get_K_repr, in state-passing form over the fresh
variable counter. Allocation order follows the source: z (composition only),
f_local, t, u, epi_exp, t_global, f_global; then the optional dualization
passes. The branch structure mirrors src/dsp/atoms.py lines 240 to 331. -/
def weighted_log_sum_exp.get_K_repr (w : weighted_log_sum_exp)
    (ltg : LocalToGlob) (switched : Bool) (c0 : Nat) : KReprW × Nat :=
  let z : Option Nat := if w.concave_composition then some c0 else none
  let c1 := if w.concave_composition then c0 + 1 else c0
  let f_local := c1
  let t := c1 + 1
  let u := c1 + 2
  let epi_exp := c1 + 3
  let cons0 : List WConstr :=
    [WConstr.epiGe epi_exp w.exponents, WConstr.expCone epi_exp u f_local,
     WConstr.tGe t u]
  let t_global := c1 + 4
  let f_global := c1 + 5
  let cons1 : List WConstr :=
    if w.concave_composition then
      cons0 ++ [WConstr.tGlobalEq t_global t, WConstr.fGlobalEq f_global f_local]
    else
      let bc := affine_to_canon w.weights ltg switched
      cons0 ++ [WConstr.tGlobalEqAff t_global t f_local bc,
                WConstr.fGlobalEqB f_global bc f_local]
  let c2 := c1 + 6
  let K_repr : KReprW := ⟨f_global, t_global, cons1, [], CETag.unset⟩
  let switching_variables := w.exponents.vars
  let precomp := z
  let step1 : KReprW × Nat :=
    if switched then
      switch_convex_concave cons1 f_global t_global switching_variables ltg precomp c2
    else (K_repr, c2)
  let K_out := step1.1
  let c3 := step1.2
  let step2 : KReprW × Nat :=
    if w.concave_composition then
      if switched then
        ({ K_out with constraints :=
            K_out.constraints ++ [WConstr.varLeWeights (z.getD 0) w.weights] }, c3)
      else
        let x_vars_1 := if switched then w.weights.vars else w.exponents.vars
        let r1 := switch_convex_concave K_out.constraints K_out.f K_out.t x_vars_1 ltg z c3
        let K_switch_1 : KReprW :=
          { r1.1 with constraints :=
              r1.1.constraints ++ [WConstr.weightsGeVar w.weights (z.getD 0)] }
        let x_vars_2 := if switched then w.exponents.vars else w.weights.vars
        switch_convex_concave K_switch_1.constraints K_switch_1.f K_switch_1.t
          x_vars_2 ltg none r1.2
    else (K_out, c3)
  let K_out2 := step2.1
  let c4 := step2.2
  let K_out3 : KReprW :=
    if ¬w.weights.nonneg then
      if switched then
        { K_out2 with constraints := K_out2.constraints ++ [WConstr.nonneg w.weights] }
      else
        { K_out2 with y_constraints := K_out2.y_constraints ++ [WConstr.nonneg w.weights] }
    else K_out2
  ({ K_out3 with ce := if switched then CETag.negConvexOf else CETag.concaveOf }, c4)

/-- Count of the implicit non-negativity constraints on the expression e in a
weighted_log_sum_exp constraint list (the program-level constraints; the
dualFeas payload is the pre-dualization input region, not a constraint
attached to the program). -/
def countNonnegW (e : CExpr) (l : List WConstr) : Nat :=
  (l.filter (fun c =>
    match c with
    | WConstr.nonneg w => decide (w = e)
    | _ => false)).length

/- ------------------------------------------------------------------
   Saddle extremum atoms (src/dsp/atoms.py lines 349 to 505) and the
   expression tree the parser collaborator walks
   ------------------------------------------------------------------ -/

/-- A deferred symbolic value: the expression returned by a deferred
concave_expr evaluator, still awaiting values for the concave-side
variables. logWeightedExp xflat weights is the result of
weighted_log_sum_exp.get_concave_expression: cp.log of the matmul of the
symbolic weights with np.exp of the flattened exponent values. -/
inductive SymVal where
  | leafSym (e : CExpr)
  | logWeightedExp (xflat : List ℚ) (weights : CExpr)
  | add (a b : SymVal)
  | smul (c : ℚ) (a : SymVal)
deriving DecidableEq

/-- weighted_log_sum_exp.get_concave_expression (src/dsp/atoms.py lines 210
to 223): when the exponents have no value it returns None (the assert on the
value is commented out in the source); otherwise it flattens the exponent
values in Fortran order and returns cp.log of the pairing with the symbolic
weights. -/
def weighted_log_sum_exp.get_concave_expression (w : weighted_log_sum_exp) :
    Option SymVal :=
  match w.exponents.value with
  | none => none
  | some xv => some (SymVal.logWeightedExp xv.flattenF w.weights)

/-- The scalar objective of a saddle_max as an expression tree: the shapes of
sub-expressions the repository tests build (affine or convex leaves, the
weighted_log_sum_exp atom, sums, scalar multiples). -/
inductive ExprTree where
  | leaf (e : CExpr)
  | wlseAtom (w : weighted_log_sum_exp)
  | add (a b : ExprTree)
  | smul (c : ℚ) (a : ExprTree)
deriving DecidableEq

/-- Size of the expression (cvxpy broadcast of the operand sizes). -/
def ExprTree.sizeT : ExprTree → Nat
  | .leaf e => e.size
  | .wlseAtom _ => 1
  | .add a b => max a.sizeT b.sizeT
  | .smul _ a => a.sizeT

/-- The free-variable list of the expression, before deduplication. -/
def ExprTree.varsRaw : ExprTree → List Var
  | .leaf e => e.vars
  | .wlseAtom w => w.exponents.vars ++ w.weights.vars
  | .add a b => a.varsRaw ++ b.varsRaw
  | .smul _ a => a.varsRaw

/-- expr.variables() in cvxpy: the deduplicated free-variable list. -/
def ExprTree.varsT (e : ExprTree) : List Var :=
  e.varsRaw.dedup

/-- Modelled from the spec: the parser collaborator partitions the free
variables of the expression into convex-side and concave-side sets
(dsp/parser.py, not under src/). A leaf carries its classification; the
weighted_log_sum_exp atom reports its exponent variables convex-side and its
weight variables concave-side; negation (a negative scalar multiple) swaps
the sides. Returns (convex side, concave side). -/
def ExprTree.sideVars : ExprTree → List Var × List Var
  | .leaf e => (e.convexSideVars, e.concaveSideVars)
  | .wlseAtom w => (w.exponents.vars, w.weights.vars)
  | .add a b => (a.sideVars.1 ++ b.sideVars.1, a.sideVars.2 ++ b.sideVars.2)
  | .smul c a => if 0 ≤ c then a.sideVars else (a.sideVars.2, a.sideVars.1)

/-- Negation of the expression tree, as used by init_parser_wrapper for the
inf mode. -/
def ExprTree.negT (e : ExprTree) : ExprTree :=
  ExprTree.smul (-1) e

/-- Modelled from the spec: parse_expr_repr (dsp/parser.py, not under src/)
walks the tree bottom-up combining K-representations; the combined deferred
concave_expr evaluator composes the child evaluators and returns None
whenever a required value is unset. -/
def ExprTree.concave_expr : ExprTree → Option SymVal
  | .leaf e => some (SymVal.leafSym e)
  | .wlseAtom w => w.get_concave_expression
  | .add a b =>
    match a.concave_expr, b.concave_expr with
    | some x, some y => some (SymVal.add x y)
    | _, _ => none
  | .smul c a => (a.concave_expr).map (fun x => SymVal.smul c x)

/-- A cvxpy constraint, as the saddle-extremum code needs it: the list of
variables it references (constraint.variables()). -/
structure SMConstraint where
  vars : List Var
deriving DecidableEq

/-- The parser object, restricted to the fields the saddle-extremum atoms
read: the recognized convex-side and concave-side variable sets. -/
structure Parser where
  convex_vars : List Var
  concave_vars : List Var
deriving DecidableEq

/-- The mode argument of init_parser_wrapper. -/
inductive Mode where
  | sup
  | inf
deriving DecidableEq

/-- Modelled from the spec: initialize_parser (dsp/parser.py, not under src/)
classifies the free variables of the expression into the two sides using the
local curvature rules; the hint lists are accepted as in the source
signature. -/
def buildParser (expr : ExprTree) (minimization_vars : List Var)
    (maximization_vars : List Var) (constraints : List SMConstraint) : Parser :=
  ⟨expr.sideVars.1, expr.sideVars.2⟩

/-- init_parser_wrapper (src/dsp/atoms.py lines 349 to 369): negates the
expression in inf mode and delegates to the parser initialization. -/
def init_parser_wrapper (expr : ExprTree) (constraints : List SMConstraint)
    (vrs : List Var) (mode : Mode) (other_variables : List Var) : Parser :=
  let expr2 := if mode = Mode.sup then expr else expr.negT
  buildParser expr2 other_variables vrs constraints

/-- SaddleExtremum._validate_arguments (src/dsp/atoms.py lines 373 to 387):
asserts the objective is scalar, raises LocalVariableError when a provided
variable is not a LocalVariable, and likewise for any variable of any
constraint. -/
def validate_arguments (f : ExprTree) (constraints : List SMConstraint)
    (vrs : List Var) : Except PyError Unit :=
  if f.sizeT ≠ 1 then .error .assertionError
  else if vrs.any (fun v => !v.isLocal) then .error .localVariableError
  else if constraints.any (fun c => c.vars.any (fun v => !v.isLocal)) then
    .error .localVariableError
  else .ok ()

/-- Set equality of two variable lists (Python set(xs) == set(ys)). -/
def listSetEq (xs ys : List Var) : Bool :=
  xs.all (fun v => decide (v ∈ ys)) && ys.all (fun v => decide (v ∈ xs))

/-- The saddle_max atom state: objective, local constraint list, the bound
concave variables, the cached parser (_parser), and the free outer
variables. -/
structure saddle_max where
  f : ExprTree
  constraints : List SMConstraint
  concave_vars : List Var
  parserCache : Option Parser
  other_variables : List Var
deriving DecidableEq

/-- The saddle_max parser property (src/dsp/atoms.py lines 424 to 455): on a
cache hit the memoized parser is returned with the atom unchanged; otherwise
the parser is initialized, the locality of the bound variables is checked
(LocalVariableError), the recognized concave set is compared with the given
one (DSPError), and on success the parser is cached. -/
def saddle_max.parserProp (a : saddle_max) : Except PyError (Parser × saddle_max) :=
  match a.parserCache with
  | some p => .ok (p, a)
  | none =>
    let parser := init_parser_wrapper a.f a.constraints a.concave_vars Mode.sup
      a.other_variables
    let all_concave_vars_specified := listSetEq a.concave_vars parser.concave_vars
    let all_concave_vars_local := a.concave_vars.all (fun v => v.isLocal)
    if ¬all_concave_vars_local then .error .localVariableError
    else if ¬all_concave_vars_specified then .error .dspError
    else .ok (parser, { a with parserCache := some parser })

/-- saddle_max.is_dsp (src/dsp/atoms.py lines 389 to 394): requests the
parser and swallows a DSPError, reporting False; other exceptions
propagate. -/
def saddle_max.is_dsp (a : saddle_max) : Except PyError (Bool × saddle_max) :=
  match a.parserProp with
  | .ok r => .ok (true, r.2)
  | .error PyError.dspError => .ok (false, a)
  | .error e => .error e

/-- saddle_max.__init__ (src/dsp/atoms.py lines 400 to 418): validates the
arguments, computes the outer variables, and calls is_dsp (which swallows a
DSPError) before finishing construction. -/
def saddle_max.mk_atom (f : ExprTree) (concave_vars : List Var)
    (constraints : List SMConstraint) : Except PyError saddle_max :=
  match validate_arguments f constraints concave_vars with
  | .error e => .error e
  | .ok _ =>
    let other_variables := f.varsT.filter
      (fun v => !(decide (v ∈ concave_vars)) && !v.isLocal)
    let a : saddle_max := ⟨f, constraints, concave_vars, none, other_variables⟩
    match a.is_dsp with
    | .error e => .error e
    | .ok r => .ok r.2

/-- The auxiliary problem saddle_max.numeric hands to the external solver:
cp.Problem(cp.Maximize(ccv), self.constraints). The solver collaborator is
outside this core. -/
structure AuxProblem where
  objective : SymVal
  constraints : List SMConstraint
deriving DecidableEq

/-- saddle_max.numeric (src/dsp/atoms.py lines 466 to 481): requests the
parser (through the convex_vars property), builds the K-representation of
the objective, evaluates its deferred concave_expr, returns None when that
evaluator returns None, and otherwise hands the auxiliary maximization
problem to the solver. -/
def saddle_max.numeric (a : saddle_max) : Except PyError (Option AuxProblem) :=
  match a.parserProp with
  | .error e => .error e
  | .ok r =>
    match r.2.f.concave_expr with
    | none => .ok none
    | some ccv => .ok (some ⟨ccv, r.2.constraints⟩)

/-- The saddle_min atom, restricted to the fields convex_min_canon reads:
objective, local constraint list, and the bound convex variables (plain
attributes on the source class). -/
structure saddle_min where
  f : ExprTree
  constraints : List SMConstraint
  convex_vars : List Var
deriving DecidableEq

/- ------------------------------------------------------------------
   saddle_quad_form (src/dsp/atoms.py lines 631 to 717) and the numpy
   reshape semantics its get_convex_expression relies on
   ------------------------------------------------------------------ -/

/-- An element of the newshape argument of np.reshape: either an integer
dimension or a nested tuple (which numpy rejects, since a tuple cannot be
interpreted as an integer). -/
inductive ShapeArg where
  | dim (n : Nat)
  | tup (t : List Nat)
deriving DecidableEq

/-- Fortran-order multi-index of the k-th element, first index fastest. -/
def fMulti : List Nat → Nat → List Nat
  | [], _ => []
  | d :: rest, k => (k % d) :: fMulti rest (k / d)

/-- Row-major flat position of a multi-index. -/
def cPos : List Nat → List Nat → Nat
  | _ :: rest, i :: is => i * rest.prod + cPos rest is
  | _, _ => 0

/-- Fortran-order position of a multi-index. -/
def fPos : List Nat → List Nat → Nat
  | d :: rest, i :: is => i + d * fPos rest is
  | _, _ => 0

/-- Row-major multi-index of the k-th element, last index fastest. -/
def cMulti : List Nat → Nat → List Nat
  | [], _ => []
  | _ :: rest, k => (k / rest.prod) :: cMulti rest (k % rest.prod)

/-- The Fortran-order read of row-major data of the given dims. -/
def fSeq (dims : List Nat) (d : List ℚ) : List ℚ :=
  (List.range dims.prod).map (fun k => d.getD (cPos dims (fMulti dims k)) 0)

/-- Row-major data of the given dims whose Fortran-order read is fdata. -/
def cFromF (dims : List Nat) (fdata : List ℚ) : List ℚ :=
  (List.range dims.prod).map (fun k => fdata.getD (fPos dims (cMulti dims k)) 0)

/-- np.reshape(a, newshape, order="F"): every element of newshape must be
interpretable as an integer (a nested tuple raises TypeError), the total
size must match (else ValueError), and the data is read and written in
Fortran order. -/
def npReshape (a : NdArray) (newshape : List ShapeArg) : Except PyError NdArray :=
  if newshape.any (fun s =>
      match s with
      | ShapeArg.tup _ => true
      | ShapeArg.dim _ => false) then
    .error .typeError
  else
    let dims := newshape.map (fun s =>
      match s with
      | ShapeArg.dim n => n
      | ShapeArg.tup _ => 0)
    if dims.prod ≠ a.data.length then .error .valueError
    else .ok ⟨dims, cFromF dims (fSeq a.shape a.data)⟩

/-- The saddle_quad_form atom after construction. -/
structure saddle_quad_form where
  x : CExpr
  P : CExpr
deriving DecidableEq

/-- saddle_quad_form.__init__: asserts P is PSD and the size of x matches
the first dimension of P. -/
def saddle_quad_form.init (x P : CExpr) : Except PyError saddle_quad_form :=
  if ¬P.psd then .error .assertionError
  else if x.size ≠ P.shape.getD 0 0 then .error .assertionError
  else .ok ⟨x, P⟩

/-- The cp.quad_form(x, P) call get_convex_expression would return: the
symbolic x with the numeric reshaped P. -/
structure QuadFormCall where
  x : CExpr
  Pval : NdArray
deriving DecidableEq

/-- saddle_quad_form.get_convex_expression (src/dsp/atoms.py lines 653 to
660): asserts P has a value and calls np.reshape(P.value, (P.shape,),
order="F") — the newshape passed is the one-element tuple containing the
shape tuple itself. -/
def saddle_quad_form.get_convex_expression (s : saddle_quad_form) :
    Except PyError QuadFormCall :=
  match s.P.value with
  | none => .error .assertionError
  | some pv =>
    match npReshape pv [ShapeArg.tup s.P.shape] with
    | .error e => .error e
    | .ok Pr => .ok ⟨s.x, Pr⟩

/-- A declared auxiliary cvxpy variable of the quad form representation:
its id, shape, and PSD attribute. -/
structure VarDecl where
  id : Nat
  shape : List Nat
  psd : Bool
deriving DecidableEq

/-- The constraints of the saddle_quad_form K-representation. -/
inductive QConstr where
  | topLeft (A F_local : Nat)
  | cornerOne (A : Nat)
  | colX (A : Nat) (x : CExpr)
  | rowX (A : Nat) (x : CExpr)
  | tZero (t : Nat)
  | fGlobal (F_global : Nat) (bc : AffineCanon) (F_local : Nat)
  | dualized (cons : List QConstr) (f t : Nat) (switchVars : List Var) (mult : Nat)

/-- The K-representation as saddle_quad_form.get_K_repr builds it. -/
structure KReprQ where
  f : Nat
  t : Nat
  decls : List VarDecl
  constraints : List QConstr
  ce : CETag

/-- Modelled from the spec: the Dualization Transform applied to the quad
form constraint list (dsp/cone_transforms.py, not under src/); fresh dual
multipliers and fresh pairing variables are allocated, and the constraint
set becomes the dual feasibility condition. Multiplier shapes are
abstracted. -/
def switch_convex_concave_q (cons : List QConstr) (f t : Nat) (switchVars : List Var)
    (ltg : LocalToGlob) (ctr : Nat) : KReprQ × Nat :=
  (⟨ctr, ctr + 1, [], [QConstr.dualized cons f t switchVars (ctr + 2)], CETag.unset⟩,
   ctr + 3)

/-- saddle_quad_form.get_K_repr (src/dsp/atoms.py lines 662 to 696):
allocates the local PSD variable F_local of shape (n, n), the PSD Schur
matrix A of shape (n+1, n+1), the scalar t and the global pairing variable
F_global; constrains the top-left block of A to F_local, its bottom-right
corner to 1, its off-diagonal blocks to x, t to 0, and F_global to the
affine image of vec(F_local); when switched it dualizes over the convex
variables and installs the get_convex_expression evaluator. -/
def saddle_quad_form.get_K_repr (s : saddle_quad_form) (ltg : LocalToGlob)
    (switched : Bool) (c0 : Nat) : KReprQ × Nat :=
  let n := s.x.size
  let F_local := c0
  let A := c0 + 1
  let t := c0 + 2
  let constraints0 : List QConstr :=
    [QConstr.topLeft A F_local, QConstr.cornerOne A, QConstr.colX A s.x,
     QConstr.rowX A s.x, QConstr.tZero t]
  let bc := affine_to_canon s.P ltg switched
  let F_global := c0 + 3
  let fgShape := [if switched then ltg.x_size else ltg.y_size]
  let decls : List VarDecl :=
    [⟨F_local, [n, n], true⟩, ⟨A, [n + 1, n + 1], true⟩, ⟨t, [], false⟩,
     ⟨F_global, fgShape, false⟩]
  let constraints1 := constraints0 ++ [QConstr.fGlobal F_global bc F_local]
  let K_repr : KReprQ := ⟨F_global, t, decls, constraints1, CETag.concaveOf⟩
  if switched then
    let r := switch_convex_concave_q constraints1 F_global t s.x.vars ltg (c0 + 4)
    ({ r.1 with ce := CETag.convexOf }, r.2)
  else (K_repr, c0 + 4)

/- ------------------------------------------------------------------
   dspp semi-infinite canonicalization
   (src/dspp/semi_infinite_canon.py, src/dspp/cvxpy_integration.py)
   ------------------------------------------------------------------ -/

/-- The auxiliary scalar objective returned by semi_infinite_epigraph, kept
abstract: the epigraph construction applied to its inputs, possibly
negated. -/
inductive SIEObj where
  | epigraphObj (f : ExprTree) (vs : List Var) (cons : List SMConstraint) (mode : Mode)
  | negObj (o : SIEObj)
deriving DecidableEq

/-- An auxiliary constraint returned by semi_infinite_epigraph, kept
abstract as a token of its inputs. -/
inductive AuxC where
  | fromEpigraph (f : ExprTree) (vs : List Var) (cons : List SMConstraint) (mode : Mode)
deriving DecidableEq

/-- Modelled from the spec: semi_infinite_epigraph (dspp/problem.py, not
under src/) wraps a saddle-extremum objective, its bound variables and its
local constraints into an auxiliary scalar objective plus auxiliary
constraints, via the K-representation and dualization machinery. -/
def semi_infinite_epigraph (f : ExprTree) (vs : List Var)
    (cons : List SMConstraint) (mode : Mode) : SIEObj × List AuxC :=
  (SIEObj.epigraphObj f vs cons mode, [AuxC.fromEpigraph f vs cons mode])

/-- concave_max_canon (src/dspp/semi_infinite_canon.py lines 14 to 17):
sup mode; the objective and the auxiliary constraints are returned
unchanged. -/
def concave_max_canon (expr : saddle_max) : SIEObj × List AuxC :=
  let mode := Mode.sup
  let r := semi_infinite_epigraph expr.f expr.concave_vars expr.constraints mode
  (r.1, r.2)

/-- convex_min_canon (src/dspp/semi_infinite_canon.py lines 20 to 23):
inf mode; the objective is negated (hypograph variable), the auxiliary
constraints are returned unchanged. -/
def convex_min_canon (expr : saddle_min) : SIEObj × List AuxC :=
  let mode := Mode.inf
  let r := semi_infinite_epigraph expr.f expr.convex_vars expr.constraints mode
  (SIEObj.negObj r.1, r.2)

/- ------------------------------------------------------------------
   Concrete fixtures (all data; used by the witnesses, counterexamples
   and closed claim theorems)
   ------------------------------------------------------------------ -/

/-- The global convex-side variable x of the integration test. -/
def vxV : Var := ⟨0, false⟩

/-- The local concave-side variable y of the integration test. -/
def vyV : Var := ⟨1, true⟩

/-- The test expression x: a nonneg affine variable of shape (2,), no value
assigned. -/
def xE1 : CExpr :=
  { affine := true, convex := true, concave := true, nonneg := true,
    nonpos := false, psd := false, shape := [2], value := none,
    vars := [vxV], convexSideVars := [vxV], concaveSideVars := [] }

/-- The test expression y: a nonneg affine local variable of shape (2,). -/
def yE1 : CExpr :=
  { affine := true, convex := true, concave := true, nonneg := true,
    nonpos := false, psd := false, shape := [2], value := none,
    vars := [vyV], convexSideVars := [], concaveSideVars := [vyV] }

/-- weighted_log_sum_exp(x, y) of the integration test. -/
def wC1 : weighted_log_sum_exp := ⟨xE1, yE1, false⟩

/-- The scalar affine leaf y[1]. -/
def y1E : CExpr :=
  { affine := true, convex := true, concave := true, nonneg := true,
    nonpos := false, psd := false, shape := [], value := none,
    vars := [vyV], convexSideVars := [], concaveSideVars := [vyV] }

/-- The scalar convex leaf exp(x[1]). -/
def expx1E : CExpr :=
  { affine := false, convex := true, concave := false, nonneg := true,
    nonpos := false, psd := false, shape := [], value := none,
    vars := [vxV], convexSideVars := [vxV], concaveSideVars := [] }

/-- The test objective 2 * wlse(x, y) + y[1] + exp(x[1]). -/
def fTreeC1 : ExprTree :=
  ExprTree.add (ExprTree.add (ExprTree.smul 2 (ExprTree.wlseAtom wC1))
    (ExprTree.leaf y1E)) (ExprTree.leaf expx1E)

/-- The local constraint y <= 1 (only its variable list matters here). -/
def cYC1 : SMConstraint := ⟨[vyV]⟩

/-- The test expression x after x.value = np.ones(2). -/
def xE1v : CExpr := { xE1 with value := some ⟨[2], [1, 1]⟩ }

/-- weighted_log_sum_exp(x, y) after the assignment to x. -/
def wC1v : weighted_log_sum_exp := ⟨xE1v, yE1, false⟩

/-- The test objective after the assignment to x. -/
def fTreeC1v : ExprTree :=
  ExprTree.add (ExprTree.add (ExprTree.smul 2 (ExprTree.wlseAtom wC1v))
    (ExprTree.leaf y1E)) (ExprTree.leaf expx1E)

/-- A parser fixture for the memoization witness. -/
def pC2 : Parser := ⟨[vxV], [vyV]⟩

/-- A saddle_max atom with a cached parser, for the memoization witness. -/
def aC2 : saddle_max := ⟨fTreeC1, [cYC1], [vyV], some pC2, [vxV]⟩

/-- A fixture affine expression of shape (2, 1) with a value. -/
def FxC3 : CExpr :=
  { affine := true, convex := true, concave := true, nonneg := false,
    nonpos := false, psd := false, shape := [2, 1],
    value := some ⟨[2, 1], [3, 4]⟩, vars := [⟨10, false⟩],
    convexSideVars := [⟨10, false⟩], concaveSideVars := [] }

/-- A fixture affine expression of shape (2,) with a value. -/
def GyC3 : CExpr :=
  { affine := true, convex := true, concave := true, nonneg := false,
    nonpos := false, psd := false, shape := [2],
    value := some ⟨[2], [5, 6]⟩, vars := [⟨11, true⟩],
    convexSideVars := [], concaveSideVars := [⟨11, true⟩] }

/-- The saddle_inner atom the constructor builds from the two fixtures. -/
def sC3 : saddle_inner := ⟨FxC3, GyC3, true⟩

/-- A weights fixture whose sign is not recognized non-negative. -/
def wE4 : CExpr :=
  { affine := true, convex := true, concave := true, nonneg := false,
    nonpos := false, psd := false, shape := [2], value := none,
    vars := [vyV], convexSideVars := [], concaveSideVars := [vyV] }

/-- The weighted_log_sum_exp atom built on the non-certified weights. -/
def wAtom4 : weighted_log_sum_exp := ⟨xE1, wE4, false⟩

/-- A convex non-affine non-negative Fx fixture. -/
def Fx4 : CExpr :=
  { affine := false, convex := true, concave := false, nonneg := true,
    nonpos := false, psd := false, shape := [2], value := none,
    vars := [vxV], convexSideVars := [vxV], concaveSideVars := [] }

/-- A concave non-affine Gy fixture whose sign is not recognized
non-negative. -/
def Gy4 : CExpr :=
  { affine := false, convex := false, concave := true, nonneg := false,
    nonpos := false, psd := false, shape := [2], value := none,
    vars := [vyV], convexSideVars := [], concaveSideVars := [vyV] }

/-- The non-bilinear saddle_inner atom on those fixtures. -/
def sI4 : saddle_inner := ⟨Fx4, Gy4, false⟩

/-- Two local variables for the scope-check fixtures. -/
def vy1 : Var := ⟨2, true⟩

def vy2 : Var := ⟨3, true⟩

/-- A non-local variable for the eager locality check. -/
def vBad : Var := ⟨4, false⟩

/-- A scalar affine objective over the two local variables, both classified
concave-side by the parser. -/
def e5 : CExpr :=
  { affine := true, convex := true, concave := true, nonneg := true,
    nonpos := false, psd := false, shape := [], value := none,
    vars := [vy1, vy2], convexSideVars := [], concaveSideVars := [vy1, vy2] }

def fTreeC5 : ExprTree := ExprTree.leaf e5

/-- The atom saddle_max construction returns when only vy1 of the two
recognized concave variables is specified: construction succeeds with an
empty parser cache. -/
def atomC5 : saddle_max := ⟨fTreeC5, [], [vy1], none, []⟩

/-- A fixture x for the quad form. -/
def xQ9 : CExpr :=
  { affine := true, convex := true, concave := true, nonneg := false,
    nonpos := false, psd := false, shape := [2], value := some ⟨[2], [1, 2]⟩,
    vars := [⟨20, false⟩], convexSideVars := [⟨20, false⟩],
    concaveSideVars := [] }

/-- A PSD matrix fixture P with a value. -/
def PQ9 : CExpr :=
  { affine := true, convex := true, concave := true, nonneg := false,
    nonpos := false, psd := true, shape := [2, 2],
    value := some ⟨[2, 2], [1, 0, 0, 1]⟩, vars := [⟨21, true⟩],
    convexSideVars := [], concaveSideVars := [⟨21, true⟩] }

/-- The saddle_quad_form atom on those fixtures. -/
def sQ9 : saddle_quad_form := ⟨xQ9, PQ9⟩

/- ------------------------------------------------------------------
   Helper lemmas
   ------------------------------------------------------------------ -/

theorem saddle_inner_init_ok {Fx Gy : CExpr} {warns : List Warning}
    {s : saddle_inner} (h : saddle_inner.init Fx Gy = (warns, Except.ok s)) :
    s = ⟨Fx, Gy, Fx.affine && Gy.affine⟩ ∧
    warns = (if Fx.affine && Gy.affine then []
             else if Gy.nonneg then [] else [Warning.gyNonneg]) ∧
    vectorShapeOk Fx.shape = true ∧
    (Fx.shape = Gy.shape ∨ Fx.size = Gy.size) := by
  unfold saddle_inner.init at h
  split at h
  next hb =>
    rw [if_pos hb]
    split at h
    next => simp at h
    next hv =>
      split at h
      next => simp at h
      next hsz =>
        simp only [Prod.mk.injEq, Except.ok.injEq] at h
        obtain ⟨hw, hs⟩ := h
        refine ⟨by rw [← hs, hb], hw.symm, by simpa using hv, ?_⟩
        by_contra hc
        push_neg at hc
        exact hsz ⟨hc.1, hc.2⟩
  next hb =>
    rw [if_neg hb]
    have hb2 : (Fx.affine && Gy.affine) = false := by simpa using hb
    split at h
    next => simp at h
    next =>
      split at h
      next => simp at h
      next =>
        split at h
        next => simp at h
        next =>
          split at h
          next hgn =>
            have hgn2 : Gy.nonneg = false := by simpa using hgn
            split at h
            next => simp at h
            next hv =>
              split at h
              next => simp at h
              next hsz =>
                simp only [Prod.mk.injEq, Except.ok.injEq] at h
                obtain ⟨hw, hs⟩ := h
                refine ⟨by rw [← hs, hb2], ?_, by simpa using hv, ?_⟩
                · rw [← hw, hgn2]
                  simp
                · by_contra hc
                  push_neg at hc
                  exact hsz ⟨hc.1, hc.2⟩
          next hgn =>
            have hgn2 : Gy.nonneg = true := by simpa using hgn
            split at h
            next => simp at h
            next hv =>
              split at h
              next => simp at h
              next hsz =>
                simp only [Prod.mk.injEq, Except.ok.injEq] at h
                obtain ⟨hw, hs⟩ := h
                refine ⟨by rw [← hs, hb2], ?_, by simpa using hv, ?_⟩
                · rw [← hw, hgn2]
                  simp
                · by_contra hc
                  push_neg at hc
                  exact hsz ⟨hc.1, hc.2⟩

/- ------------------------------------------------------------------
   Claim C3
   ------------------------------------------------------------------ -/

/-- C3: for affine Fx and Gy of compatible shapes with concrete values
assigned, the numerically evaluated value of the pairing atom concave
expression equals the literal inner (dot) product of the values of Fx
and Gy. -/
theorem claim_C3_pairing_inner_product (Fx Gy : CExpr) (warns : List Warning)
    (s : saddle_inner) (vx vy : NdArray)
    (hinit : saddle_inner.init Fx Gy = (warns, Except.ok s))
    (hvx : Fx.value = some vx) (hvy : Gy.value = some vy)
    (hsx : vx.shape = Fx.shape) (hly : vy.data.length = vy.shape.prod)
    (hlx : vx.data.length = vx.shape.prod)
    (hvec : vectorShapeOk vy.shape = true) :
    s.concaveExprValue = some (literalInner vx vy) := by
  obtain ⟨hs, _, hshape, _⟩ := saddle_inner_init_ok hinit
  subst hs
  have h1 : saddle_inner.get_concave_expression ⟨Fx, Gy, Fx.affine && Gy.affine⟩
      = Except.ok (vx.flattenF, Gy) := by
    unfold saddle_inner.get_concave_expression
    simp only [hvx]
  unfold saddle_inner.concaveExprValue
  rw [h1]
  show Option.map (fun v => dot vx.flattenF v.flattenF) Gy.value
      = some (literalInner vx vy)
  rw [hvy]
  show some (dot vx.flattenF vy.flattenF) = some (literalInner vx vy)
  rw [flattenF_of_vectorShape vx (by rw [hsx]; exact hshape) hlx,
    flattenF_of_vectorShape vy hvec hly]
  rfl

theorem claim_C3_witness :
    saddle_inner.init FxC3 GyC3 = ([], Except.ok sC3) ∧
    sC3.concaveExprValue = some (literalInner ⟨[2, 1], [3, 4]⟩ ⟨[2], [5, 6]⟩) :=
  ⟨by decide,
   claim_C3_pairing_inner_product FxC3 GyC3 [] sC3 ⟨[2, 1], [3, 4]⟩ ⟨[2], [5, 6]⟩
     (by decide) (by decide) (by decide) (by decide) (by decide) (by decide)
     (by decide)⟩

/- ------------------------------------------------------------------
   Claim C6
   ------------------------------------------------------------------ -/

/-- C6: for a bilinear pairing atom (both arguments affine), get_K_repr with
switched produces the bilinear representation of -Gy paired with Fx, and
without switched the bilinear representation of Fx paired with Gy. -/
theorem claim_C6_bilinear_switch (Fx Gy : CExpr) (warns : List Warning)
    (s : saddle_inner) (ltg : LocalToGlob)
    (hinit : saddle_inner.init Fx Gy = (warns, Except.ok s))
    (haf : Fx.affine = true) (hag : Gy.affine = true) :
    s.get_K_repr ltg true =
      { K_repr_bilin (CExpr.neg Gy) Fx ltg with ce := CETag.negConvexOf } ∧
    s.get_K_repr ltg false =
      { K_repr_bilin Fx Gy ltg with ce := CETag.concaveOf } := by
  obtain ⟨hs, _, _, _⟩ := saddle_inner_init_ok hinit
  subst hs
  rw [haf, hag]
  exact ⟨rfl, rfl⟩

theorem claim_C6_witness :
    saddle_inner.init FxC3 GyC3 = ([], Except.ok sC3) ∧
    sC3.get_K_repr ⟨2, 2⟩ true =
      { K_repr_bilin (CExpr.neg GyC3) FxC3 ⟨2, 2⟩ with ce := CETag.negConvexOf } ∧
    sC3.get_K_repr ⟨2, 2⟩ false =
      { K_repr_bilin FxC3 GyC3 ⟨2, 2⟩ with ce := CETag.concaveOf } :=
  ⟨by decide,
   claim_C6_bilinear_switch FxC3 GyC3 [] sC3 ⟨2, 2⟩ (by decide) (by decide) (by decide)⟩

/- ------------------------------------------------------------------
   Claim C10
   ------------------------------------------------------------------ -/

/-- C10: a bilinear pairing atom emits no warning at construction and its
K-representation never carries an implicit non-negativity constraint on Gy,
for either role. -/
theorem claim_C10_bilinear_no_warning (Fx Gy : CExpr)
    (warns : List Warning) (s : saddle_inner)
    (hinit : saddle_inner.init Fx Gy = (warns, Except.ok s))
    (haf : Fx.affine = true) (hag : Gy.affine = true) :
    warns = [] ∧ ∀ (ltg : LocalToGlob) (sw : Bool),
      countNonnegSI s.Gy
        ((s.get_K_repr ltg sw).constraints ++ (s.get_K_repr ltg sw).y_constraints)
        = 0 := by
  obtain ⟨hs, hw, _, _⟩ := saddle_inner_init_ok hinit
  subst hs
  constructor
  · rw [hw, if_pos (show (Fx.affine && Gy.affine) = true by rw [haf, hag]; rfl)]
  · intro ltg sw
    rw [haf, hag]
    cases sw <;> rfl

theorem claim_C10_witness :
    saddle_inner.init FxC3 GyC3 = ([], Except.ok sC3) ∧
    countNonnegSI sC3.Gy
      ((sC3.get_K_repr ⟨2, 2⟩ true).constraints ++
        (sC3.get_K_repr ⟨2, 2⟩ true).y_constraints) = 0 :=
  ⟨by decide,
   (claim_C10_bilinear_no_warning FxC3 GyC3 [] sC3 (by decide) (by decide)
     (by decide)).2 ⟨2, 2⟩ true⟩

/- ------------------------------------------------------------------
   Claim C7
   ------------------------------------------------------------------ -/

/-- C7: concave_max_canon (sup mode) returns the semi_infinite_epigraph
objective unchanged, convex_min_canon (inf mode) returns it negated, and
each returns the auxiliary constraint list produced by its
semi_infinite_epigraph call. -/
theorem claim_C7_canon_signs (ma : saddle_max) (mi : saddle_min) :
    concave_max_canon ma =
      ((semi_infinite_epigraph ma.f ma.concave_vars ma.constraints Mode.sup).1,
       (semi_infinite_epigraph ma.f ma.concave_vars ma.constraints Mode.sup).2) ∧
    convex_min_canon mi =
      (SIEObj.negObj
        (semi_infinite_epigraph mi.f mi.convex_vars mi.constraints Mode.inf).1,
       (semi_infinite_epigraph mi.f mi.convex_vars mi.constraints Mode.inf).2) :=
  ⟨rfl, rfl⟩

/- ------------------------------------------------------------------
   Claim C8
   ------------------------------------------------------------------ -/

/-- C8: the unswitched K-representation of saddle_quad_form over x of size n
declares a PSD F_local of shape (n, n) and a PSD Schur matrix A of shape
(n+1, n+1), constrains the top-left block of A to F_local, its bottom-right
corner to 1, its off-diagonal blocks to x, the scalar t to 0, and F_global
to the affine image of vec(F_local). -/
theorem claim_C8_quad_form_structure (s : saddle_quad_form)
    (ltg : LocalToGlob) (c0 : Nat) :
    s.get_K_repr ltg false c0 =
      (⟨c0 + 3, c0 + 2,
        [⟨c0, [s.x.size, s.x.size], true⟩,
         ⟨c0 + 1, [s.x.size + 1, s.x.size + 1], true⟩,
         ⟨c0 + 2, [], false⟩,
         ⟨c0 + 3, [ltg.y_size], false⟩],
        [QConstr.topLeft (c0 + 1) c0, QConstr.cornerOne (c0 + 1),
         QConstr.colX (c0 + 1) s.x, QConstr.rowX (c0 + 1) s.x,
         QConstr.tZero (c0 + 2),
         QConstr.fGlobal (c0 + 3) (affine_to_canon s.P ltg false) c0],
        CETag.concaveOf⟩, c0 + 4) :=
  rfl

/- ------------------------------------------------------------------
   Claim C9
   ------------------------------------------------------------------ -/

/-- C9: whenever the matrix argument P of a saddle_quad_form atom holds a
value, get_convex_expression raises a TypeError — the newshape handed to
np.reshape is the nested tuple (P.shape,) — so it never returns the
quadratic form value; and the switched K-representation installs exactly
this evaluator as its concave_expr. -/
theorem claim_C9_convex_expression_raises (s : saddle_quad_form) (pv : NdArray)
    (hv : s.P.value = some pv) :
    s.get_convex_expression = Except.error PyError.typeError ∧
    ∀ (ltg : LocalToGlob) (c0 : Nat),
      ((s.get_K_repr ltg true c0).1).ce = CETag.convexOf := by
  constructor
  · have hre : npReshape pv [ShapeArg.tup s.P.shape] = Except.error PyError.typeError := rfl
    simp only [saddle_quad_form.get_convex_expression, hv, hre]
  · intro ltg c0
    rfl

theorem claim_C9_witness :
    sQ9.P.value = some ⟨[2, 2], [1, 0, 0, 1]⟩ ∧
    sQ9.get_convex_expression = Except.error PyError.typeError :=
  ⟨by decide,
   (claim_C9_convex_expression_raises sQ9 ⟨[2, 2], [1, 0, 0, 1]⟩ (by decide)).1⟩

/- ------------------------------------------------------------------
   Claim C1
   ------------------------------------------------------------------ -/

/-- C1 (evaluation at the failing input): for the test atom
sup_y(2 * wlse(x, y) + y[1] + exp(x[1]), [y], [y <= 1]), calling numeric
before x has a value returns None without raising any error — the value
assert of get_concave_expression is commented out in src/dsp/atoms.py and
numeric passes the None through — whereas after setting x = [1, 1] the
evaluation proceeds to the auxiliary solver problem whose objective is the
concave expression at x = [1, 1]. -/
theorem claim_C1_numeric_none_at_failing_input :
    (saddle_max.mk_atom fTreeC1 [vyV] [cYC1]).bind saddle_max.numeric
      = Except.ok none ∧
    (saddle_max.mk_atom fTreeC1v [vyV] [cYC1]).bind saddle_max.numeric
      = Except.ok (some ⟨SymVal.add (SymVal.add (SymVal.smul 2
          (SymVal.logWeightedExp [1, 1] yE1)) (SymVal.leafSym y1E))
          (SymVal.leafSym expx1E), [cYC1]⟩) := by
  constructor
  · decide
  · decide

/- ------------------------------------------------------------------
   Claim C2
   ------------------------------------------------------------------ -/

/-- Every weighted_log_sum_exp.get_K_repr request allocates only fresh
auxiliary variables: the pairing variable id of the result is at or above
the incoming counter, and the outgoing counter is strictly beyond it. -/
theorem wlse_get_K_repr_fresh (w : weighted_log_sum_exp) (ltg : LocalToGlob)
    (sw : Bool) (c0 : Nat) :
    c0 ≤ ((w.get_K_repr ltg sw c0).1).f ∧
    ((w.get_K_repr ltg sw c0).1).f < (w.get_K_repr ltg sw c0).2 := by
  cases hc : w.concave_composition <;> cases sw <;>
    simp [weighted_log_sum_exp.get_K_repr, switch_convex_concave, hc,
      apply_ite] <;>
    omega

/-- C2 (counterexample): the claim asserts that a second request for the
same atom's K-representation in the same role returns the memoized first
result; for the test weighted_log_sum_exp atom the representation returned
by the second get_K_repr call carries a different (freshly allocated)
pairing variable than the first, so the two representations are not
identical. -/
theorem claim_C2_counterexample :
    ((weighted_log_sum_exp.get_K_repr wC1 ⟨2, 2⟩ false
        ((weighted_log_sum_exp.get_K_repr wC1 ⟨2, 2⟩ false 0).2)).1).f ≠
    ((weighted_log_sum_exp.get_K_repr wC1 ⟨2, 2⟩ false 0).1).f := by
  decide

/-- C2 (amended): the saddle-extremum parser is memoized per atom — a second
request returns the cached parser with the atom unchanged — but atom
K-representations are not memoized: every get_K_repr request recomputes the
representation, allocating only fresh auxiliary variables (the pairing
variable id lies at or above the incoming allocation counter and the counter
is advanced strictly past it), so a second request yields a structurally
parallel but not identical representation and mutates no shared state. -/
theorem claim_C2_parser_memoized_krepr_fresh :
    (∀ (a : saddle_max) (p : Parser), a.parserCache = some p →
      a.parserProp = Except.ok (p, a)) ∧
    (∀ (w : weighted_log_sum_exp) (ltg : LocalToGlob) (sw : Bool) (c0 : Nat),
      c0 ≤ ((w.get_K_repr ltg sw c0).1).f ∧
      ((w.get_K_repr ltg sw c0).1).f < (w.get_K_repr ltg sw c0).2) := by
  constructor
  · intro a p hp
    unfold saddle_max.parserProp
    rw [hp]
  · exact wlse_get_K_repr_fresh

theorem claim_C2_witness :
    aC2.parserProp = Except.ok (pC2, aC2) ∧
    (0 ≤ ((weighted_log_sum_exp.get_K_repr wC1 ⟨2, 2⟩ false 0).1).f ∧
      ((weighted_log_sum_exp.get_K_repr wC1 ⟨2, 2⟩ false 0).1).f
        < (weighted_log_sum_exp.get_K_repr wC1 ⟨2, 2⟩ false 0).2) :=
  ⟨claim_C2_parser_memoized_krepr_fresh.1 aC2 pC2 rfl,
   claim_C2_parser_memoized_krepr_fresh.2 wC1 ⟨2, 2⟩ false 0⟩

/- ------------------------------------------------------------------
   Claim C4
   ------------------------------------------------------------------ -/

theorem wlse_init_ok {eE wE : CExpr} {warns : List Warning}
    {w : weighted_log_sum_exp}
    (h : weighted_log_sum_exp.init eE wE = (warns, Except.ok w)) :
    w = ⟨eE, wE, !wE.affine⟩ ∧
    warns = (if wE.nonneg then [] else [Warning.weightsNonneg]) := by
  unfold weighted_log_sum_exp.init at h
  split at h
  next => simp at h
  next =>
    split at h
    next => simp at h
    next =>
      split at h
      next hgn =>
        have hgn2 : wE.nonneg = false := by simpa using hgn
        split at h
        next => simp at h
        next =>
          split at h
          next => simp at h
          next =>
            simp only [Prod.mk.injEq, Except.ok.injEq] at h
            obtain ⟨hw, hs⟩ := h
            refine ⟨hs.symm, ?_⟩
            rw [← hw, hgn2]
            simp
      next hgn =>
        have hgn2 : wE.nonneg = true := by simpa using hgn
        split at h
        next => simp at h
        next =>
          split at h
          next => simp at h
          next =>
            simp only [Prod.mk.injEq, Except.ok.injEq] at h
            obtain ⟨hw, hs⟩ := h
            refine ⟨hs.symm, ?_⟩
            rw [← hw, hgn2]
            simp

/-- When the weights are not recognized non-negative, the
weighted_log_sum_exp K-representation carries exactly one implicit
non-negativity constraint on them, in every role. -/
theorem wlse_K_repr_one_nonneg (w : weighted_log_sum_exp) (ltg : LocalToGlob)
    (sw : Bool) (c0 : Nat) (hn : w.weights.nonneg = false) :
    countNonnegW w.weights
      (((w.get_K_repr ltg sw c0).1).constraints ++
        ((w.get_K_repr ltg sw c0).1).y_constraints) = 1 := by
  cases hc : w.concave_composition <;> cases sw <;>
    simp [weighted_log_sum_exp.get_K_repr, switch_convex_concave,
      countNonnegW, hc, hn, List.filter]

/-- When Gy is not recognized non-negative, the non-bilinear saddle_inner
K-representation carries exactly one implicit non-negativity constraint on
it, in every role. -/
theorem si_K_repr_one_nonneg (s : saddle_inner) (ltg : LocalToGlob) (sw : Bool)
    (hb : s.bilinear = false) (hn : s.Gy.nonneg = false) :
    countNonnegSI s.Gy
      ((s.get_K_repr ltg sw).constraints ++ (s.get_K_repr ltg sw).y_constraints)
      = 1 := by
  cases sw <;>
    simp [saddle_inner.get_K_repr, K_repr_FxGy, countNonnegSI, hb, hn,
      List.filter]

/-- C4: an atom built with a weight argument whose recognized sign is not
non-negative emits exactly one warning at construction, and its
K-representation carries exactly one implicit non-negativity constraint,
never more than one of each: shown for weighted_log_sum_exp (weights) and
for the non-bilinear pairing atom (Gy). -/
theorem claim_C4_one_warning_one_constraint :
    (∀ (eE wE : CExpr) (warns : List Warning) (w : weighted_log_sum_exp),
      weighted_log_sum_exp.init eE wE = (warns, Except.ok w) →
      wE.nonneg = false →
      warns = [Warning.weightsNonneg] ∧
      ∀ (ltg : LocalToGlob) (sw : Bool) (c0 : Nat),
        countNonnegW w.weights
          (((w.get_K_repr ltg sw c0).1).constraints ++
            ((w.get_K_repr ltg sw c0).1).y_constraints) = 1) ∧
    (∀ (Fx Gy : CExpr) (warns : List Warning) (s : saddle_inner),
      saddle_inner.init Fx Gy = (warns, Except.ok s) →
      s.bilinear = false → Gy.nonneg = false →
      warns = [Warning.gyNonneg] ∧
      ∀ (ltg : LocalToGlob) (sw : Bool),
        countNonnegSI s.Gy
          ((s.get_K_repr ltg sw).constraints ++
            (s.get_K_repr ltg sw).y_constraints) = 1) := by
  constructor
  · intro eE wE warns w hinit hn
    obtain ⟨hw, hwar⟩ := wlse_init_ok hinit
    refine ⟨by rw [hwar, hn]; simp, ?_⟩
    intro ltg sw c0
    exact wlse_K_repr_one_nonneg w ltg sw c0 (by rw [hw]; exact hn)
  · intro Fx Gy warns s hinit hbil hn
    obtain ⟨hs, hwar, _, _⟩ := saddle_inner_init_ok hinit
    have hb2 : (Fx.affine && Gy.affine) = false := by rw [hs] at hbil; exact hbil
    refine ⟨by rw [hwar, hb2, hn]; simp, ?_⟩
    intro ltg sw
    exact si_K_repr_one_nonneg s ltg sw hbil (by rw [hs]; exact hn)

theorem claim_C4_witness :
    weighted_log_sum_exp.init xE1 wE4 = ([Warning.weightsNonneg], Except.ok wAtom4) ∧
    countNonnegW wAtom4.weights
      (((wAtom4.get_K_repr ⟨2, 2⟩ false 0).1).constraints ++
        ((wAtom4.get_K_repr ⟨2, 2⟩ false 0).1).y_constraints) = 1 ∧
    saddle_inner.init Fx4 Gy4 = ([Warning.gyNonneg], Except.ok sI4) ∧
    countNonnegSI sI4.Gy
      ((sI4.get_K_repr ⟨2, 2⟩ true).constraints ++
        (sI4.get_K_repr ⟨2, 2⟩ true).y_constraints) = 1 :=
  ⟨by decide,
   (claim_C4_one_warning_one_constraint.1 xE1 wE4 [Warning.weightsNonneg]
      wAtom4 (by decide) (by decide)).2 ⟨2, 2⟩ false 0,
   by decide,
   (claim_C4_one_warning_one_constraint.2 Fx4 Gy4 [Warning.gyNonneg] sI4
      (by decide) (by decide) (by decide)).2 ⟨2, 2⟩ true⟩

/- ------------------------------------------------------------------
   Claim C5
   ------------------------------------------------------------------ -/

/-- C5 (counterexample): for the objective over two local variables both
recognized concave-side by the parser, constructing saddle_max with only one
of them specified succeeds — no DSPError is raised at atom-build time even
though the bound-variable set differs from the recognized set. -/
theorem claim_C5_counterexample :
    listSetEq [vy1] (fTreeC5.sideVars).2 = false ∧
    saddle_max.mk_atom fTreeC5 [vy1] [] = Except.ok atomC5 := by
  constructor
  · decide
  · decide

/-- validate_arguments never produces a DSPError. -/
theorem validate_never_dsp (f : ExprTree) (cons : List SMConstraint)
    (cvars : List Var) (e : PyError)
    (h : validate_arguments f cons cvars = Except.error e) :
    e ≠ PyError.dspError := by
  unfold validate_arguments at h
  split at h
  next =>
    simp only [Except.error.injEq] at h
    subst h
    decide
  next =>
    split at h
    next =>
      simp only [Except.error.injEq] at h
      subst h
      decide
    next =>
      split at h
      next =>
        simp only [Except.error.injEq] at h
        subst h
        decide
      next => simp at h

/-- saddle_max.is_dsp never propagates a DSPError: that case is swallowed
and reported as False. -/
theorem is_dsp_never_dsp (a : saddle_max) (e : PyError)
    (h : a.is_dsp = Except.error e) : e ≠ PyError.dspError := by
  intro hcontra
  subst hcontra
  unfold saddle_max.is_dsp at h
  cases hpp : a.parserProp with
  | ok r =>
    rw [hpp] at h
    simp at h
  | error e2 =>
    rw [hpp] at h
    cases e2 <;> simp_all

/-- C5 (amended): the locality checks of the saddle-extremum constructor are
eager — a non-local bound variable or constraint variable fails construction
with a LocalVariableError — but the bound-variable-set check is not:
construction never fails with a DSPError (is_dsp swallows it), and the
DSPError surfaces only when the parser is requested on the constructed atom
(for example by numeric evaluation or canonicalization). -/
theorem claim_C5_amended_eagerness :
    (∀ (f : ExprTree) (cvars : List Var) (cons : List SMConstraint),
      f.sizeT = 1 →
      ((∃ v ∈ cvars, v.isLocal = false) ∨
        (∃ c ∈ cons, ∃ v ∈ c.vars, v.isLocal = false)) →
      saddle_max.mk_atom f cvars cons = Except.error PyError.localVariableError) ∧
    (∀ (f : ExprTree) (cvars : List Var) (cons : List SMConstraint),
      saddle_max.mk_atom f cvars cons ≠ Except.error PyError.dspError) ∧
    (∀ (a : saddle_max), a.parserCache = none →
      a.concave_vars.all (fun v => v.isLocal) = true →
      listSetEq a.concave_vars (a.f.sideVars).2 = false →
      a.parserProp = Except.error PyError.dspError) := by
  refine ⟨?_, ?_, ?_⟩
  · intro f cvars cons hsize hbad
    have hval : validate_arguments f cons cvars
        = Except.error PyError.localVariableError := by
      unfold validate_arguments
      rw [if_neg (by simp [hsize])]
      by_cases hv : cvars.any (fun v => !v.isLocal) = true
      · rw [if_pos hv]
      · rw [if_neg hv]
        have hcany : cons.any (fun c => c.vars.any (fun v => !v.isLocal)) = true := by
          cases hbad with
          | inl hex =>
            exfalso
            obtain ⟨v, hvmem, hvl⟩ := hex
            exact hv (List.any_eq_true.mpr ⟨v, hvmem, by rw [hvl]; rfl⟩)
          | inr hex =>
            obtain ⟨c, hcmem, v, hvmem, hvl⟩ := hex
            exact List.any_eq_true.mpr
              ⟨c, hcmem, List.any_eq_true.mpr ⟨v, hvmem, by rw [hvl]; rfl⟩⟩
        rw [if_pos hcany]
    unfold saddle_max.mk_atom
    rw [hval]
  · intro f cvars cons h
    unfold saddle_max.mk_atom at h
    split at h
    next hval =>
      simp only [Except.error.injEq] at h
      exact validate_never_dsp f cons cvars _ hval h
    next =>
      dsimp only at h
      split at h
      next hdsp =>
        simp only [Except.error.injEq] at h
        exact is_dsp_never_dsp _ _ hdsp h
      next => simp at h
  · intro a hc hall hset
    unfold saddle_max.parserProp
    rw [hc]
    simp [init_parser_wrapper, buildParser, hall, hset]

theorem claim_C5_witness :
    saddle_max.mk_atom fTreeC5 [vBad] [] = Except.error PyError.localVariableError ∧
    atomC5.parserProp = Except.error PyError.dspError :=
  ⟨claim_C5_amended_eagerness.1 fTreeC5 [vBad] [] (by decide)
     (Or.inl ⟨vBad, by decide, by decide⟩),
   claim_C5_amended_eagerness.2.2 atomC5 rfl (by decide) (by decide)⟩

end DSP
